import Mathlib

/-!
Shallow embedding of the ledger logic of `src/src/App.jsx` (an OKCredit-style
single-file React bookkeeping app) and proofs about it.

Modelling conventions:
* Firestore timestamps are modelled by their `toMillis()` value, an integer;
  a possibly-absent timestamp field is `Option ℤ`.
* JavaScript numbers are modelled by exact rationals `ℚ` (every amount the app
  handles is a finite decimal); `NaN` is modelled by `Option` (`none` = NaN).
* The live snapshot of the `transactions` collection filtered by
  `customerSupplierId == cid` is modelled as `List.filter` over the full store.
* `Array.prototype.sort` with comparator `(a, b) => dateB - dateA` is modelled
  by a stable sort (`List.insertionSort`) with the relation
  "a may precede b iff toMillis b.date ≤ toMillis a.date".
-/

/-- A document of the `transactions` collection (fields used by `App.jsx`). -/
structure Transaction where
  id : String
  customerSupplierId : String
  amount : ℚ
  /-- The direction flag: the app writes only "credit" or "debit" here. -/
  type : String
  description : String
  /-- The user-chosen effective date, as `toMillis()`; `none` models a missing field. -/
  date : Option ℤ
  createdAt : Option ℤ
  updatedAt : Option ℤ
deriving DecidableEq, Repr

/-- A document of the `customers_suppliers` collection. -/
structure Contact where
  name : String
  mobile : String
  address : String
  ctype : String
  balance : ℚ
  createdAt : ℤ
deriving DecidableEq, Repr

/-- Embedding of `a.date ? a.date.toMillis() : 0` in the sort comparator (App.jsx:448-449). -/
def toMillis (d : Option ℤ) : ℤ :=
  match d with
  | none => 0
  | some m => m

/-- The order used for the descending-by-date sort: `a` may come before `b`
iff the comparator `dateB - dateA` is ≤ 0, i.e. `toMillis b.date ≤ toMillis a.date`. -/
def dateDesc (a b : Transaction) : Prop :=
  toMillis b.date ≤ toMillis a.date

instance : DecidableRel dateDesc := fun a b =>
  inferInstanceAs (Decidable (toMillis b.date ≤ toMillis a.date))

instance : IsTotal Transaction dateDesc :=
  ⟨fun a b => le_total (toMillis b.date) (toMillis a.date)⟩

instance : IsTrans Transaction dateDesc :=
  ⟨fun _ _ _ hab hbc => le_trans hbc hab⟩

/-- The transaction list published by `CustomerDetail`'s snapshot handler:
the current set of transactions with matching `customerSupplierId`
(the Firestore `where` filter, App.jsx:438-441), sorted descending by
effective date (App.jsx:447-451). -/
def publishedTransactions (store : List Transaction) (cid : String) : List Transaction :=
  List.insertionSort dateDesc (store.filter (fun t => t.customerSupplierId == cid))

/-- One step of the balance recomputation loop (App.jsx:457-463):
`if (t.type === 'credit') currentBalance += t.amount;
 else if (t.type === 'debit') currentBalance -= t.amount;`. -/
def balanceStep (acc : ℚ) (t : Transaction) : ℚ :=
  if t.type = "credit" then acc + t.amount
  else if t.type = "debit" then acc - t.amount
  else acc

/-- The full balance recomputation (App.jsx:456-464): start from 0 and fold
`balanceStep` over the fetched transactions. -/
def computeBalance (ts : List Transaction) : ℚ :=
  ts.foldl balanceStep 0

/-- The signed contribution of a single transaction to the balance. -/
def contrib (t : Transaction) : ℚ :=
  if t.type = "credit" then t.amount
  else if t.type = "debit" then -t.amount
  else 0

/-- Sum of amounts over the transactions with direction "credit". -/
def sumCredit (ts : List Transaction) : ℚ :=
  ((ts.filter (fun t => t.type == "credit")).map Transaction.amount).sum

/-- Sum of amounts over the transactions with direction "debit". -/
def sumDebit (ts : List Transaction) : ℚ :=
  ((ts.filter (fun t => t.type == "debit")).map Transaction.amount).sum

lemma foldl_balanceStep (ts : List Transaction) (acc : ℚ) :
    ts.foldl balanceStep acc = acc + (ts.map contrib).sum := by
  induction ts generalizing acc with
  | nil => simp
  | cons t ts ih =>
    simp only [List.foldl_cons, List.map_cons, List.sum_cons, ih]
    unfold balanceStep contrib
    split_ifs <;> ring

lemma computeBalance_eq_sum_contrib (ts : List Transaction) :
    computeBalance ts = (ts.map contrib).sum := by
  simpa using foldl_balanceStep ts 0

lemma sum_contrib_eq (ts : List Transaction) :
    (ts.map contrib).sum = sumCredit ts - sumDebit ts := by
  induction ts with
  | nil => simp [sumCredit, sumDebit]
  | cons t ts ih =>
    simp only [List.map_cons, List.sum_cons, ih, sumCredit, sumDebit, List.filter_cons]
    unfold contrib
    by_cases hc : t.type = "credit"
    · simp [hc]; ring
    · by_cases hd : t.type = "debit"
      · simp [hc, hd]; ring
      · simp [hc, hd]

/-- Claim C1: The recomputed balance equals the sum of credit amounts minus the
sum of debit amounts over the current transaction set, and it is a pure
function of that set alone: any rearrangement of the same transactions yields
the same balance, and recomputing on the same list yields the same result. -/
theorem computeBalance_spec (ts : List Transaction) :
    computeBalance ts = sumCredit ts - sumDebit ts ∧
    (∀ ts2 : List Transaction, ts.Perm ts2 → computeBalance ts = computeBalance ts2) := by
  constructor
  · rw [computeBalance_eq_sum_contrib, sum_contrib_eq]
  · intro ts2 hperm
    rw [computeBalance_eq_sum_contrib, computeBalance_eq_sum_contrib]
    exact List.Perm.sum_eq (hperm.map contrib)

/-- Concrete instance of `computeBalance_spec`: the spec's worked example
`[{amount:500, dir:credit}, {amount:200, dir:debit}]` has balance 300, and the
permuted list gives the same balance. -/
theorem computeBalance_spec_witness :
    computeBalance
        [⟨"t1", "c", 500, "credit", "", some 1, some 1, none⟩,
         ⟨"t2", "c", 200, "debit", "", some 2, some 2, none⟩] = 300 ∧
    computeBalance
        [⟨"t1", "c", 500, "credit", "", some 1, some 1, none⟩,
         ⟨"t2", "c", 200, "debit", "", some 2, some 2, none⟩] =
      computeBalance
        [⟨"t2", "c", 200, "debit", "", some 2, some 2, none⟩,
         ⟨"t1", "c", 500, "credit", "", some 1, some 1, none⟩] := by
  constructor
  · have h := (computeBalance_spec
      [⟨"t1", "c", 500, "credit", "", some 1, some 1, none⟩,
       ⟨"t2", "c", 200, "debit", "", some 2, some 2, none⟩]).1
    rw [h]
    simp +decide [sumCredit, sumDebit, List.filter_cons, List.filter_nil]
    norm_num
  · exact (computeBalance_spec
      [⟨"t1", "c", 500, "credit", "", some 1, some 1, none⟩,
       ⟨"t2", "c", 200, "debit", "", some 2, some 2, none⟩]).2 _
      (List.Perm.swap _ _ _)

/-- Claim C2: On every snapshot the published list is exactly the current
transactions whose `customerSupplierId` matches the subscribed contact
(as a multiset: a permutation of the filtered store), and it is ordered
descending by effective date: pairwise, every earlier-positioned transaction
has a date at least as late, so for any two positions `i < j` the transaction
at `i` has `toMillis date` ≥ the one at `j` (hence a strictly later date never
appears after an earlier one). -/
theorem publishedTransactions_spec (store : List Transaction) (cid : String) :
    (publishedTransactions store cid).Perm
        (store.filter (fun t => t.customerSupplierId == cid)) ∧
    List.Pairwise dateDesc (publishedTransactions store cid) ∧
    (∀ ts, ts = publishedTransactions store cid →
      ∀ i j (hi : i < ts.length) (hj : j < ts.length), i < j →
        toMillis (ts.get ⟨j, hj⟩).date ≤ toMillis (ts.get ⟨i, hi⟩).date) := by
  refine ⟨List.perm_insertionSort dateDesc _, List.sorted_insertionSort dateDesc _, ?_⟩
  intro ts hts i j hi hj hij
  subst hts
  exact (List.sorted_insertionSort dateDesc _).rel_get_of_lt
    (show (⟨i, hi⟩ : Fin _) < ⟨j, hj⟩ from hij)

/-- A concrete two-transaction store used to instantiate the theorems. -/
def wStore : List Transaction :=
  [⟨"t1", "c", 1, "credit", "", some 5, none, none⟩,
   ⟨"t2", "c", 1, "credit", "", some 9, none, none⟩]

/-- Concrete instance of `publishedTransactions_spec`: in the published view of
`wStore` the transaction at position 1 has a date no later than the one at
position 0. -/
theorem publishedTransactions_spec_witness :
    toMillis ((publishedTransactions wStore "c").get ⟨1, by decide⟩).date ≤
      toMillis ((publishedTransactions wStore "c").get ⟨0, by decide⟩).date :=
  (publishedTransactions_spec wStore "c").2.2 _ rfl 0 1 (by decide) (by decide)
    (by decide)

/-- Claim C3: The empty transaction set recomputes to balance 0, and subscribing
with a contact id matched by no transaction in the store publishes the empty
list with balance 0 (no error value is involved). -/
theorem emptySet_balance_spec :
    computeBalance ([] : List Transaction) = 0 ∧
    ∀ (store : List Transaction) (cid : String),
      (∀ t ∈ store, t.customerSupplierId ≠ cid) →
        publishedTransactions store cid = [] ∧
        computeBalance (publishedTransactions store cid) = 0 := by
  refine ⟨rfl, ?_⟩
  intro store cid h
  have hf : store.filter (fun t => t.customerSupplierId == cid) = [] := by
    rw [List.filter_eq_nil_iff]
    intro t ht
    simpa using h t ht
  have hp : publishedTransactions store cid = [] := by
    rw [publishedTransactions, hf]
    rfl
  exact ⟨hp, by rw [hp]; rfl⟩

/-- Concrete instance of `emptySet_balance_spec`: no transaction of `wStore`
belongs to contact "zzz", so the published view is empty with balance 0. -/
theorem emptySet_balance_spec_witness :
    publishedTransactions wStore "zzz" = [] ∧
    computeBalance (publishedTransactions wStore "zzz") = 0 :=
  emptySet_balance_spec.2 wStore "zzz" (by decide)

/-- Replacing a transaction's direction by "debit", all other fields kept
(the edit in claim C9). -/
def flipToDebit (t : Transaction) : Transaction :=
  { t with type := "debit" }

lemma sum_contrib_set (ts : List Transaction) (i : ℕ) (hi : i < ts.length)
    (x : Transaction) :
    ((ts.set i x).map contrib).sum =
      (ts.map contrib).sum - contrib ts[i] + contrib x := by
  induction ts generalizing i with
  | nil => simp at hi
  | cons t ts ih =>
    cases i with
    | zero => simp; ring
    | succ n =>
      have hn : n < ts.length := by simpa using Nat.lt_of_succ_lt_succ hi
      simp only [List.set_cons_succ, List.map_cons, List.sum_cons,
        List.getElem_cons_succ, ih n hn]
      ring

/-- Claim C9: For every transaction list and every position holding a "credit"
transaction of positive amount, recomputing the balance after replacing that
transaction's direction by "debit" (amount unchanged) yields the old balance
minus twice the amount. -/
theorem flip_credit_to_debit_spec (ts : List Transaction) (i : ℕ)
    (hi : i < ts.length) (hc : ts[i].type = "credit") (_hp : 0 < ts[i].amount) :
    computeBalance (ts.set i (flipToDebit ts[i])) =
      computeBalance ts - 2 * ts[i].amount := by
  have hne : ("debit" : String) ≠ "credit" := by decide
  have h1 : contrib (flipToDebit ts[i]) = -(ts[i].amount) := by
    simp [contrib, flipToDebit, hne]
  have h2 : contrib ts[i] = ts[i].amount := by
    simp [contrib, hc]
  rw [computeBalance_eq_sum_contrib, computeBalance_eq_sum_contrib,
    sum_contrib_set ts i hi, h1, h2]
  ring

/-- A one-element store holding a credit transaction of amount 7. -/
def wTs : List Transaction := [⟨"t1", "c", 7, "credit", "", some 1, none, none⟩]

/-- Concrete instance of `flip_credit_to_debit_spec` on `wTs` at position 0. -/
theorem flip_credit_to_debit_spec_witness :
    computeBalance (wTs.set 0 (flipToDebit (wTs.get ⟨0, by decide⟩))) =
      computeBalance wTs - 2 * (wTs.get ⟨0, by decide⟩).amount :=
  flip_credit_to_debit_spec wTs 0 (by decide) (by decide) (by norm_num [wTs])

/-- Claim C10: A transaction whose direction flag is neither "credit" nor
"debit" leaves the accumulator unchanged in the recomputation loop, and the
balance over a transaction list equals the balance over its sub-list of
transactions whose direction is "credit" or "debit". -/
theorem other_direction_zero_spec :
    (∀ (acc : ℚ) (t : Transaction), t.type ≠ "credit" → t.type ≠ "debit" →
      balanceStep acc t = acc) ∧
    ∀ ts : List Transaction,
      computeBalance ts =
        computeBalance
          (ts.filter (fun t => t.type == "credit" || t.type == "debit")) := by
  constructor
  · intro acc t hc hd
    rw [balanceStep, if_neg hc, if_neg hd]
  · intro ts
    rw [computeBalance_eq_sum_contrib, computeBalance_eq_sum_contrib]
    induction ts with
    | nil => simp
    | cons t ts ih =>
      rw [List.filter_cons]
      by_cases hc : t.type = "credit"
      · simp [hc, ih]
      · by_cases hd : t.type = "debit"
        · simp [hc, hd, ih]
        · simp [hc, hd, ih, contrib]

/-- Concrete instance of `other_direction_zero_spec`: a transaction with
direction "unknown" leaves the accumulator 5 unchanged. -/
theorem other_direction_zero_spec_witness :
    balanceStep 5 ⟨"t3", "c", 9, "unknown", "", none, none, none⟩ = 5 :=
  other_direction_zero_spec.1 5 ⟨"t3", "c", 9, "unknown", "", none, none, none⟩
    (by decide) (by decide)

/-- The `CustomerDetail` component state touched by the snapshot callback. -/
structure DetailState where
  transactions : List Transaction
  balance : ℚ
  loadingTransactions : Bool
  /-- The message surfaced to the user via `showMessageBox`, if any. -/
  messageBox : Option String
deriving DecidableEq, Repr

/-- Embedding of the snapshot callback of `CustomerDetail` (App.jsx:443-476):
materialize and sort the matching transactions, recompute the balance, set the
component state, then issue the best-effort `updateDoc` write-back whose
outcome is `writeResult`; on failure the `catch` block only logs
(`console.error`, returned as the second component) and shows no message box.
Returns the new component state and the log entry. -/
def handleSnapshot (st : DetailState) (store : List Transaction) (cid : String)
    (writeResult : Except String Unit) : DetailState × Option String :=
  let fetchedTransactions := publishedTransactions store cid
  let currentBalance := computeBalance fetchedTransactions
  let log : Option String :=
    match writeResult with
    | Except.error e => some ("Error updating customer/supplier balance:" ++ e)
    | Except.ok _ => none
  ({ st with transactions := fetchedTransactions, balance := currentBalance,
             loadingTransactions := false }, log)

/-- Claim C4: The write-back outcome never blocks or alters the published view:
the resulting component state is the same for any two write outcomes, the
published list and balance are exactly the locally derived ones, no message
box is shown (the failure is not surfaced), and a failing write produces only
a log entry. -/
theorem writeback_failure_swallowed (st : DetailState) (store : List Transaction)
    (cid : String) (r1 r2 : Except String Unit) :
    (handleSnapshot st store cid r1).1 = (handleSnapshot st store cid r2).1 ∧
    (handleSnapshot st store cid r1).1.transactions = publishedTransactions store cid ∧
    (handleSnapshot st store cid r1).1.balance =
      computeBalance (publishedTransactions store cid) ∧
    (handleSnapshot st store cid r1).1.messageBox = st.messageBox ∧
    (∀ e, (handleSnapshot st store cid (Except.error e)).2 =
      some ("Error updating customer/supplier balance:" ++ e)) :=
  ⟨rfl, rfl, rfl, rfl, fun _ => rfl⟩

/-- Model of JavaScript `String.prototype.trim`: drop whitespace from both ends. -/
def jsTrim (s : String) : String :=
  ⟨((s.data.dropWhile Char.isWhitespace).reverse.dropWhile Char.isWhitespace).reverse⟩

/-- Outcome of a form submission: a validation/error rejection shown as an
error message box, or a successful save shown as a success message box. -/
inductive SubmitOutcome where
  | rejected (msg : String)
  | saved (msg : String)
deriving DecidableEq, Repr

/-- Embedding of `AddCustomer.handleSubmit` (App.jsx:710-740): reject an empty (after trim)
name, then reject if Firebase is unavailable, otherwise `addDoc` a contact
with trimmed fields, type "customer" and balance 0. Returns the contact store
after the call and the message-box outcome. -/
def addCustomerSubmit (name mobile address : String) (sessionOk : Bool)
    (now : ℤ) (store : List Contact) : List Contact × SubmitOutcome :=
  if jsTrim name = "" then
    (store, SubmitOutcome.rejected "Name cannot be empty.")
  else if !sessionOk then
    (store, SubmitOutcome.rejected "Firebase not initialized. Please try again.")
  else
    (store ++ [⟨jsTrim name, jsTrim mobile, jsTrim address, "customer", 0, now⟩],
     SubmitOutcome.saved (name ++ " added successfully as a customer!"))

/-- The record written by `addDoc` for a new transaction: the `transactionData`
fields of App.jsx:893-900 plus `createdAt` (App.jsx:908-911), with the
store-assigned id `newId`. -/
def newTransactionRecord (newId cid : String) (a : ℚ) (ty desc : String)
    (dateMillis now : ℤ) : Transaction :=
  ⟨newId, cid, a, ty, jsTrim desc, some dateMillis, some now, some now⟩

/-- The effect of `updateDoc` with `transactionData` (App.jsx:902-905) on the
stored transaction: all `transactionData` fields are replaced, `createdAt` is
left as is. -/
def applyTransactionEdit (t : Transaction) (cid : String) (a : ℚ)
    (ty desc : String) (dateMillis now : ℤ) : Transaction :=
  { t with customerSupplierId := cid, amount := a, type := ty,
           description := jsTrim desc, date := some dateMillis,
           updatedAt := some now }

/-- Embedding of `TransactionForm.handleSubmit` (App.jsx:875-921). `rawAmount` is the
component's raw amount state, `none` modelling the empty string (whose
`parseFloat` is NaN). Validation: reject unless the amount is a number > 0;
then reject if Firebase is unavailable; then either update the transaction
`editId` in place (edit mode) or append a fresh record with store-assigned id
`newId`. Returns the transaction store after the call and the outcome. -/
def transactionSubmit (rawAmount : Option ℚ) (ty desc : String)
    (dateMillis : ℤ) (cid csName : String) (isEditing : Bool)
    (editId : Option String) (sessionOk : Bool) (now : ℤ) (newId : String)
    (store : List Transaction) : List Transaction × SubmitOutcome :=
  match rawAmount with
  | none => (store, SubmitOutcome.rejected "Please enter a valid positive amount.")
  | some a =>
    if a ≤ 0 then
      (store, SubmitOutcome.rejected "Please enter a valid positive amount.")
    else if !sessionOk then
      (store, SubmitOutcome.rejected "Firebase not initialized. Please try again.")
    else if isEditing then
      (store.map (fun t => if some t.id = editId then
          applyTransactionEdit t cid a ty desc dateMillis now else t),
       SubmitOutcome.saved "Transaction updated successfully!")
    else
      (store ++ [newTransactionRecord newId cid a ty desc dateMillis now],
       SubmitOutcome.saved
         ("Transaction recorded successfully for " ++ csName ++ "!"))

/-- Claim C5: A submission with an empty or whitespace-only contact name, and a
transaction submission whose amount does not parse to a number strictly
greater than 0, are rejected with a descriptive message and leave the store
unchanged (no record is created or modified). -/
theorem validation_rejected_spec :
    (∀ (name mobile address : String) (sessionOk : Bool) (now : ℤ)
        (store : List Contact), jsTrim name = "" →
      addCustomerSubmit name mobile address sessionOk now store =
        (store, SubmitOutcome.rejected "Name cannot be empty.")) ∧
    (∀ (rawAmount : Option ℚ) (ty desc : String) (dateMillis : ℤ)
        (cid csName : String) (isEditing : Bool) (editId : Option String)
        (sessionOk : Bool) (now : ℤ) (newId : String)
        (store : List Transaction), (∀ a, rawAmount = some a → a ≤ 0) →
      transactionSubmit rawAmount ty desc dateMillis cid csName isEditing
          editId sessionOk now newId store =
        (store, SubmitOutcome.rejected "Please enter a valid positive amount.")) := by
  constructor
  · intro name mobile address sessionOk now store h
    rw [addCustomerSubmit, if_pos h]
  · intro rawAmount ty desc dateMillis cid csName isEditing editId sessionOk
      now newId store h
    cases rawAmount with
    | none => rfl
    | some a =>
      have ha : a ≤ 0 := h a rfl
      rw [transactionSubmit]
      simp [ha]

/-- Concrete instances of `validation_rejected_spec`: a whitespace-only name
and a negative amount are both rejected on the empty store. -/
theorem validation_rejected_spec_witness :
    addCustomerSubmit "   " "9876" "addr" true 0 [] =
      ([], SubmitOutcome.rejected "Name cannot be empty.") ∧
    transactionSubmit (some (-5)) "credit" "" 0 "c1" "Ravi" false none true 0
        "n1" [] =
      ([], SubmitOutcome.rejected "Please enter a valid positive amount.") :=
  ⟨validation_rejected_spec.1 "   " "9876" "addr" true 0 [] (by decide),
   validation_rejected_spec.2 (some (-5)) "credit" "" 0 "c1" "Ravi" false none
     true 0 "n1" [] (by
      intro a ha
      obtain rfl := (Option.some.inj ha).symm
      norm_num)⟩

/-- Claim C6 counterexample: A freshly created transaction record does carry a
last-update timestamp: creating a transaction (amount 10, direction "credit")
at time 50 stores `updatedAt = some 50`, not `none`. -/
theorem freshTransaction_updatedAt_cex :
    ((transactionSubmit (some 10) "credit" "note" 100 "c1" "Ravi" false none
        true 50 "n1" []).1.map Transaction.updatedAt) = [some 50] ∧
    (some 50 : Option ℤ) ≠ none := by
  constructor
  · norm_num [transactionSubmit, newTransactionRecord]
  · simp

/-- Claim C6, amended: Every save sets the last-update timestamp: a freshly
created transaction record carries both a creation timestamp and a last-update
timestamp equal to the save time, while an edit refreshes the last-update
timestamp and leaves the creation timestamp unchanged; a valid non-edit
submission appends exactly such a fresh record. -/
theorem transaction_timestamps_spec :
    (∀ (newId cid : String) (a : ℚ) (ty desc : String) (dateMillis now : ℤ),
      (newTransactionRecord newId cid a ty desc dateMillis now).createdAt = some now ∧
      (newTransactionRecord newId cid a ty desc dateMillis now).updatedAt = some now) ∧
    (∀ (t : Transaction) (cid : String) (a : ℚ) (ty desc : String)
        (dateMillis now : ℤ),
      (applyTransactionEdit t cid a ty desc dateMillis now).updatedAt = some now ∧
      (applyTransactionEdit t cid a ty desc dateMillis now).createdAt = t.createdAt) ∧
    (∀ (a : ℚ) (ty desc : String) (dateMillis : ℤ) (cid csName : String)
        (sessionOk : Bool) (now : ℤ) (newId : String)
        (store : List Transaction), 0 < a → sessionOk = true →
      (transactionSubmit (some a) ty desc dateMillis cid csName false none
          sessionOk now newId store).1 =
        store ++ [newTransactionRecord newId cid a ty desc dateMillis now]) := by
  refine ⟨fun _ _ _ _ _ _ _ => ⟨rfl, rfl⟩, fun _ _ _ _ _ _ _ => ⟨rfl, rfl⟩, ?_⟩
  intro a ty desc dateMillis cid csName sessionOk now newId store ha hs
  subst hs
  rw [transactionSubmit]
  simp [not_le.mpr ha]

/-- Concrete instance of `transaction_timestamps_spec`: the valid creation at
time 50 appends the fresh record, whose `updatedAt` is `some 50`. -/
theorem transaction_timestamps_spec_witness :
    (transactionSubmit (some 10) "credit" "note" 100 "c1" "Ravi" false none
        true 50 "n1" []).1 =
      [] ++ [newTransactionRecord "n1" "c1" 10 "credit" "note" 100 50] :=
  transaction_timestamps_spec.2.2 10 "credit" "note" 100 "c1" "Ravi" true 50
    "n1" [] (by norm_num) rfl

/-- Embedding of `getFormattedMobileForWhatsApp` (App.jsx:54-67): empty input short-circuits
to `""` (the `if (!mobile) return ''` guard); otherwise strip non-digits
(`replace(/\D/g, '')`), and prefix `+` when the digits start with "91" and are
at least 10 long, else prefix `+91`. -/
def getFormattedMobileForWhatsApp (mobile : String) : String :=
  if mobile = "" then ""
  else
    let cleanedMobile : String := ⟨mobile.data.filter Char.isDigit⟩
    if ("91".data.isPrefixOf cleanedMobile.data ∧ 10 ≤ cleanedMobile.length) then
      "+" ++ cleanedMobile
    else
      "+91" ++ cleanedMobile

/-- Claim C8 counterexample: On the empty input string the function returns `""`,
not the `"+91"` that the claimed for-every-string rule ("otherwise prefix the
stripped digits with '+91'") would produce. -/
theorem phone_empty_cex :
    getFormattedMobileForWhatsApp "" = "" ∧ ("" : String) ≠ "+91" := by
  constructor
  · rfl
  · decide

/-- Claim C8, amended: For every non-empty input string the claimed rule holds:
after stripping all non-digits, if the result starts with "91" and has at
least 10 digits the output is the digits prefixed with "+", otherwise the
digits prefixed with "+91"; in particular "9876543210" and "919876543210"
both map to "+919876543210". The empty string maps to the empty string. -/
theorem phone_normalization_spec :
    (∀ mobile : String, mobile ≠ "" →
      getFormattedMobileForWhatsApp mobile =
        if ("91".data.isPrefixOf (mobile.data.filter Char.isDigit) ∧
            10 ≤ (mobile.data.filter Char.isDigit).length) then
          "+" ++ (⟨mobile.data.filter Char.isDigit⟩ : String)
        else
          "+91" ++ (⟨mobile.data.filter Char.isDigit⟩ : String)) ∧
    getFormattedMobileForWhatsApp "9876543210" = "+919876543210" ∧
    getFormattedMobileForWhatsApp "919876543210" = "+919876543210" := by
  refine ⟨?_, by decide, by decide⟩
  intro mobile h
  rw [getFormattedMobileForWhatsApp, if_neg h]
  rfl

/-- Concrete instance of `phone_normalization_spec` at the non-empty input
"9876543210". -/
theorem phone_normalization_spec_witness :
    getFormattedMobileForWhatsApp "9876543210" =
      if ("91".data.isPrefixOf (("9876543210" : String).data.filter Char.isDigit) ∧
          10 ≤ (("9876543210" : String).data.filter Char.isDigit).length) then
        "+" ++ (⟨("9876543210" : String).data.filter Char.isDigit⟩ : String)
      else
        "+91" ++ (⟨("9876543210" : String).data.filter Char.isDigit⟩ : String) :=
  phone_normalization_spec.1 "9876543210" (by decide)

/-- A JavaScript value reaching `formatRupee`: a (finite) number or a string.
Numbers are modelled exactly as rationals; `NaN`/`Infinity` carriers are not
produced by the app's inputs and are not modelled. -/
inductive JsValue where
  | num (q : ℚ)
  | str (s : String)
deriving DecidableEq, Repr

/-- Value of a digit run, most significant first. -/
def digitsToNat (l : List Char) : ℕ :=
  l.foldl (fun acc c => 10 * acc + (c.toNat - 48)) 0

/-- Parse the mantissa part of a JS float literal: `digits [. digits]` or
`. digits`; returns its value and the unconsumed rest, or `none` when no
digit is present (the NaN case). -/
def parseMantissa (l : List Char) : Option (ℚ × List Char) :=
  let ip := l.takeWhile Char.isDigit
  let r1 := l.dropWhile Char.isDigit
  match r1 with
  | '.' :: rest =>
    let fp := rest.takeWhile Char.isDigit
    let r2 := rest.dropWhile Char.isDigit
    if ip.isEmpty && fp.isEmpty then none
    else some ((digitsToNat ip : ℚ) + (digitsToNat fp : ℚ) / (10 : ℚ) ^ fp.length, r2)
  | _ => if ip.isEmpty then none else some ((digitsToNat ip : ℚ), r1)

/-- Value of an exponent suffix after `e`/`E`: optional sign then digits; an
exponent with no digits contributes nothing (JS parses the longest valid
numeric prefix, so `"1e"` is just 1). -/
def parseExpValue (l : List Char) : ℤ :=
  match l with
  | '-' :: rest =>
    let ds := rest.takeWhile Char.isDigit
    if ds.isEmpty then 0 else -(digitsToNat ds : ℤ)
  | '+' :: rest =>
    let ds := rest.takeWhile Char.isDigit
    if ds.isEmpty then 0 else (digitsToNat ds : ℤ)
  | _ =>
    let ds := l.takeWhile Char.isDigit
    if ds.isEmpty then 0 else (digitsToNat ds : ℤ)

/-- Multiply a mantissa by 10 to a signed power. -/
def scalePow (m : ℚ) (e : ℤ) : ℚ :=
  if 0 ≤ e then m * (10 : ℚ) ^ e.toNat else m / (10 : ℚ) ^ (-e).toNat

/-- Apply a trailing exponent suffix, if any, to the parsed mantissa. -/
def applyExponent (m : ℚ) (r : List Char) : ℚ :=
  match r with
  | 'e' :: rest => scalePow m (parseExpValue rest)
  | 'E' :: rest => scalePow m (parseExpValue rest)
  | _ => m

/-- Model of JavaScript `parseFloat` on a string: skip leading whitespace, optional
sign, then the longest numeric prefix `digits[.digits][(e|E)[sign]digits]`;
`none` models NaN (no digit found). `Infinity` inputs are not modelled. -/
def jsParseFloat (s : String) : Option ℚ :=
  let l := s.data.dropWhile Char.isWhitespace
  match l with
  | '-' :: rest => (parseMantissa rest).map (fun p => -(applyExponent p.1 p.2))
  | '+' :: rest => (parseMantissa rest).map (fun p => applyExponent p.1 p.2)
  | _ => (parseMantissa l).map (fun p => applyExponent p.1 p.2)

/-- Embedding of `parseFloat(amount)` where `amount` may be a number or a string
(App.jsx:40): a number parses to itself, a string through `jsParseFloat`. -/
def parseFloatJs (v : JsValue) : Option ℚ :=
  match v with
  | JsValue.num q => some q
  | JsValue.str s => jsParseFloat s

/-- Exactly-two-digit decimal rendering of `k % 100` (the
`minimumFractionDigits: 2, maximumFractionDigits: 2` part of the formatter). -/
def pad2 (k : ℕ) : String :=
  ⟨[Nat.digitChar (k / 10 % 10), Nat.digitChar (k % 10)]⟩

/-- Three-digit rendering of `k % 1000`, used for the last group. -/
def pad3 (k : ℕ) : String :=
  ⟨[Nat.digitChar (k / 100 % 10), Nat.digitChar (k / 10 % 10), Nat.digitChar (k % 10)]⟩

/-- The leading part of en-IN digit grouping: groups of two, from the right. -/
def pairGroups (m : ℕ) : String :=
  if _h : m < 100 then Nat.repr m
  else pairGroups (m / 100) ++ "," ++ pad2 (m % 100)
termination_by m
decreasing_by
  exact Nat.div_lt_self (by omega) (by omega)

/-- en-IN (lakh/crore) grouping of a natural number: last group of three,
then groups of two. -/
def indianGroup (n : ℕ) : String :=
  if n < 1000 then Nat.repr n
  else pairGroups (n / 1000) ++ "," ++ pad3 (n % 1000)

/-- Embedding of `Intl.NumberFormat('en-IN', { style: 'currency', currency: 'INR',
minimumFractionDigits: 2, maximumFractionDigits: 2 })` on a finite number:
round to a whole number of paise (default rounding mode `halfExpand`, i.e.
half away from zero, computed here on `|q|` as
`(200·|num| + den) / (2·den)` in integer division), then emit sign, the ₹
symbol, the Indian-grouped rupee digits, a dot, and exactly two paise
digits. -/
def formatINR (q : ℚ) : String :=
  let cents := (200 * q.num.natAbs + q.den) / (2 * q.den)
  (if q < 0 then "-" else "") ++ "₹" ++ indianGroup (cents / 100) ++ "." ++
    pad2 (cents % 100)

/-- Embedding of `formatRupee` (App.jsx:39-51): `parseFloat` the input; NaN returns the
input unchanged, otherwise the en-IN INR formatting of the parsed number. -/
def formatRupee (v : JsValue) : JsValue :=
  match parseFloatJs v with
  | none => v
  | some q => JsValue.str (formatINR q)

lemma digitChar_isDigit (n : ℕ) : (Nat.digitChar (n % 10)).isDigit = true := by
  have h : n % 10 < 10 := Nat.mod_lt _ (by omega)
  have hall : ∀ m, m < 10 → (Nat.digitChar m).isDigit = true := by decide
  exact hall _ h

/-- Claim C7: Every numeric input is rendered through the en-IN INR formatter;
the rendering always ends in a dot followed by exactly two digit characters;
the worked example 1234.5 renders as the grouped "₹1,234.50"; and a
non-numeric input (one whose `parseFloat` is NaN) is returned unchanged, as
witnessed by "abc". -/
theorem formatRupee_spec :
    (∀ q : ℚ, formatRupee (JsValue.num q) = JsValue.str (formatINR q)) ∧
    (∀ q : ℚ, ∃ (pre : String) (a b : Char),
      formatINR q = pre ++ "." ++ (⟨[a, b]⟩ : String) ∧
      a.isDigit = true ∧ b.isDigit = true) ∧
    formatRupee (JsValue.num (1234.5 : ℚ)) = JsValue.str "₹1,234.50" ∧
    (∀ s : String, jsParseFloat s = none →
      formatRupee (JsValue.str s) = JsValue.str s) ∧
    formatRupee (JsValue.str "abc") = JsValue.str "abc" := by
  refine ⟨fun q => rfl, ?_, ?_, ?_, rfl⟩
  · intro q
    refine ⟨(if q < 0 then "-" else "") ++ "₹" ++
        indianGroup ((200 * q.num.natAbs + q.den) / (2 * q.den) / 100),
      Nat.digitChar ((200 * q.num.natAbs + q.den) / (2 * q.den) % 100 / 10 % 10),
      Nat.digitChar ((200 * q.num.natAbs + q.den) / (2 * q.den) % 100 % 10),
      rfl, digitChar_isDigit _, digitChar_isDigit _⟩
  · show JsValue.str (formatINR (1234.5 : ℚ)) = JsValue.str "₹1,234.50"
    have hc : (200 * (1234.5 : ℚ).num.natAbs + (1234.5 : ℚ).den) /
        (2 * (1234.5 : ℚ).den) = 123450 := by
      norm_num [OfScientific.ofScientific]
    have hneg : ¬ ((1234.5 : ℚ) < 0) := by norm_num
    rw [formatINR]
    simp only [hc, if_neg hneg]
    norm_num
    simp [indianGroup, pairGroups]
    decide
  · intro s h
    rw [formatRupee, parseFloatJs, h]

/-- Concrete instance of `formatRupee_spec`: "abc" does not parse, so it is
returned unchanged. -/
theorem formatRupee_spec_witness :
    formatRupee (JsValue.str "abc") = JsValue.str "abc" :=
  formatRupee_spec.2.2.2.1 "abc" rfl
